import Mathlib

/-!
Verification of the CollabCanva tile-extraction scripts.

The repository slices a sprite-sheet image into fixed-size tiles:
* `extract_tiles.py` crops a 4x4 grid of 16x16 tiles (1px margin) and pastes
  them into a 1x16 strip image;
* `extract_tiles_correct.py` collects tiles over a (cols x rows) grid given in
  tile coordinates, truncates or pads to 16, and saves them individually;
* `split_tiles.py` re-splits a 256x16 strip into 16 individual tiles.

Images are modelled as a width, a height and a pixel function; `crop` and
`paste` follow PIL semantics (a crop box may extend past the image bounds, in
which case the out-of-bounds pixels read as transparent black, and the crop
never fails).
-/

namespace CollabCanva

/-- An RGBA pixel value. -/
abbrev Pixel := Nat × Nat × Nat × Nat

/-- The fill used by PIL for pixels read outside an image's bounds and for
freshly created RGBA images. -/
def transparent : Pixel := (0, 0, 0, 0)

/-- A decoded image: dimensions plus a pixel function. -/
structure Image where
  width : Nat
  height : Nat
  pix : Nat → Nat → Pixel

/-- Bounds-checked pixel read: out-of-bounds reads give `transparent`
(PIL semantics for reads outside the image). -/
def Image.getpx (img : Image) (x y : Nat) : Pixel :=
  if x < img.width ∧ y < img.height then img.pix x y else transparent

/-- `img.crop (l, t, r, b)` as in PIL: the result always has size
`(r - l) x (b - t)`; pixels whose source coordinate falls outside the image
are transparent.  No bounds check is performed. -/
def Image.crop (img : Image) (l t r b : Nat) : Image :=
  ⟨r - l, b - t, fun i j => img.getpx (l + i) (t + j)⟩

/-- `Image.new 'RGBA' (w, h) (0,0,0,0)`: a fully transparent image. -/
def Image.new (w h : Nat) : Image :=
  ⟨w, h, fun _ _ => transparent⟩

/-- `base.paste (tile, (px, py))` as in PIL: overwrite the rectangle of
`base` covered by `tile`. -/
def Image.paste (base tile : Image) (px py : Nat) : Image :=
  ⟨base.width, base.height, fun x y =>
    if px ≤ x ∧ x < px + tile.width ∧ py ≤ y ∧ y < py + tile.height then
      tile.getpx (x - px) (y - py)
    else base.pix x y⟩

/-- `TILE_SIZE = 16` (shared constant of all three scripts). -/
def TILE_SIZE : Nat := 16

/-- `MARGIN = 1`. -/
def MARGIN : Nat := 1

/-- `TILE_STEP = TILE_SIZE + MARGIN = 17`. -/
def TILE_STEP : Nat := TILE_SIZE + MARGIN

/-! ### extract_tiles.py: 4x4 grid extraction into a strip -/

/-- One tile of the 4x4 grid in `extract_tiles.py`: for linear index `idx`,
`row = idx // 4`, `col = idx % 4`, and the crop box starts at
`(start_x + col * TILE_STEP, start_y + row * TILE_STEP)`. -/
def gridTile (img : Image) (sx sy idx : Nat) : Image :=
  let row := idx / 4
  let col := idx % 4
  img.crop (sx + col * TILE_STEP) (sy + row * TILE_STEP)
    (sx + col * TILE_STEP + TILE_SIZE) (sy + row * TILE_STEP + TILE_SIZE)

/-- The paste loop of `extract_tiles.py`: paste each tile of the list at
`(idx * TILE_SIZE, 0)` on top of the accumulated image, `idx` counting up. -/
def pasteAll (base : Image) : Nat → List Image → Image
  | _, [] => base
  | i, t :: ts => pasteAll (base.paste t (i * TILE_SIZE) 0) (i + 1) ts

/-- `row_image` of `extract_tiles.py`: a transparent 256x16 image with the
given tiles pasted left-to-right at `x = idx * TILE_SIZE`, no margin. -/
def writeStrip (tiles : List Image) : Image :=
  pasteAll (Image.new (16 * TILE_SIZE) TILE_SIZE) 0 tiles

/-- The full grid branch of `extract_tiles.py` for one tile set. -/
def buildRowImage (img : Image) (sx sy : Nat) : Image :=
  writeStrip ((List.range 16).map (gridTile img sx sy))

/-! ### extract_tiles_correct.py -/

/-- One entry of the `TILESETS` table of `extract_tiles_correct.py`:
`start` and `grid` are in tile coordinates, `exclude` lists tile coordinates
to skip. -/
structure TilesetCfg where
  name : String
  start_col : Nat
  start_row : Nat
  cols : Nat
  rows : Nat
  exclude : List (Nat × Nat)

/-- The crop of the tile at tile coordinates `(tc, tr)`:
`x = tc * TILE_STEP`, `y = tr * TILE_STEP`, box of side `TILE_SIZE`. -/
def cellTile (img : Image) (tc tr : Nat) : Image :=
  img.crop (tc * TILE_STEP) (tr * TILE_STEP)
    (tc * TILE_STEP + TILE_SIZE) (tr * TILE_STEP + TILE_SIZE)

/-- The collection loop of `extract_tiles_correct.extract_tileset`:
row-major over the grid, skipping excluded tile coordinates. -/
def collectTiles (img : Image) (cfg : TilesetCfg) : List Image :=
  (List.range cfg.rows).flatMap fun row =>
    (List.range cfg.cols).filterMap fun col =>
      let tc := cfg.start_col + col
      let tr := cfg.start_row + row
      if (tc, tr) ∈ cfg.exclude then none
      else some (cellTile img tc tr)

/-- The `TILESETS` table of `extract_tiles_correct.py`. -/
def TILESETS : List TilesetCfg :=
  [⟨"water", 1, 1, 5, 6, []⟩,
   ⟨"grass", 1, 7, 5, 12, []⟩,
   ⟨"dirt", 6, 8, 5, 6, []⟩,
   ⟨"stone", 6, 13, 5, 6, []⟩]

/-- Python `f"\x7bidx:02d\x7d"` for the indices used here (0 ≤ idx < 100):
zero-pad to two digits. -/
def fmt02 (n : Nat) : String :=
  if n < 10 then "0" ++ toString n else toString n

/-- The output file name `f"\x7bname\x7d_\x7bidx:02d\x7d.png"` used by both
`extract_tiles_correct.py` and `split_tiles.py`. -/
def tileFileName (name : String) (idx : Nat) : String :=
  name ++ "_" ++ fmt02 idx ++ ".png"

/-- One written output file: its name and the image saved into it. -/
structure SavedFile where
  fname : String
  img : Image

/-- The uncaught Python exceptions our model tracks. -/
inductive PyError
  | indexError
deriving DecidableEq

/-- The save loop `for idx, tile in enumerate(tiles)` starting at index `i`. -/
def saveTilesFrom (name : String) : Nat → List Image → List SavedFile
  | _, [] => []
  | i, t :: ts => ⟨tileFileName name i, t⟩ :: saveTilesFrom name (i + 1) ts

/-- Processing of one tile set inside `extract_tiles_correct.extract_tileset`:
collect, truncate to the first 16 if 16 or more were collected, save each
collected tile, then pad the remaining file slots with `tiles[0]`.
Accessing `tiles[0]` on an empty list is an uncaught `IndexError`. -/
def processTileset (img : Image) (cfg : TilesetCfg) : Except PyError (List SavedFile) :=
  let tiles0 := collectTiles img cfg
  let tiles := if 16 ≤ tiles0.length then tiles0.take 16 else tiles0
  let saved := saveTilesFrom cfg.name 0 tiles
  if tiles.length < 16 then
    match tiles with
    | [] => Except.error PyError.indexError
    | t0 :: _ =>
      Except.ok (saved ++
        (List.range' tiles.length (16 - tiles.length)).map fun i =>
          ⟨tileFileName cfg.name i, t0⟩)
  else Except.ok saved

/-- The files of a per-tileset result (`[]` when it crashed). -/
def savedOf : Except PyError (List SavedFile) → List SavedFile
  | Except.ok fs => fs
  | Except.error _ => []

/-- The tileset loop of `extract_tiles_correct.extract_tileset`: sequential,
so an uncaught exception in one tileset aborts the rest of the run. -/
def runTilesets (img : Image) : List TilesetCfg → Except PyError (List SavedFile)
  | [] => Except.ok []
  | cfg :: rest => do
    let fs ← processTileset img cfg
    let more ← runTilesets img rest
    Except.ok (fs ++ more)

/-- Outcome of one script invocation: the process exit status, the messages
printed, and the files written. -/
structure RunOutcome where
  exitCode : Nat
  messages : List String
  files : List SavedFile
deriving Inhabited

/-- `extract_tiles_correct.extract_tileset` as invoked by its `__main__`:
a missing source file prints an error and returns — the script then ends
normally, so the process exit status is 0.  Any path that does not raise
ends with exit status 0 (Python semantics for a script that falls off the
end without `sys.exit`). -/
def extract_tileset (source : Option Image) (cfgs : List TilesetCfg) :
    Except PyError RunOutcome :=
  match source with
  | none => Except.ok ⟨0, ["Error: Source image not found"], []⟩
  | some img =>
    (runTilesets img cfgs).map fun fs =>
      ⟨0, ["[SUCCESS] Extraction complete!"], fs⟩

/-- The `__main__` block of `extract_tiles.py` (lines 101-109): when the
source file is missing it prints an error and instructions, and the script
ends without `sys.exit`, hence exit status 0. -/
def oldMain (sourceExists : Bool) : Nat × List String :=
  if sourceExists then (0, ["[SUCCESS] Extraction complete!"])
  else (0, ["Error: Source image not found: roguelikeSheet_transparent.png"])

/-! ### split_tiles.py -/

/-- `VARIANTS = 16`. -/
def VARIANTS : Nat := 16

/-- The crop of `split_tiles.split_tileset` for one variant:
`x = variant * TILE_SIZE`, `y = 0`. -/
def splitCrop (img : Image) (variant : Nat) : Image :=
  img.crop (variant * TILE_SIZE) 0 (variant * TILE_SIZE + TILE_SIZE) TILE_SIZE

/-- The extraction loop of `split_tiles.split_tileset`: 16 crops saved as
`name_00.png` … `name_15.png`. -/
def split_tileset (name : String) (img : Image) : List SavedFile :=
  (List.range VARIANTS).map fun v => ⟨tileFileName name v, splitCrop img v⟩

/-- The `TILESETS` list of `split_tiles.py`. -/
def SPLIT_TILESETS : List String := ["water", "grass", "dirt", "stone"]

/-- Result of `split_tileset` for one name: either the missing-input error
was reported (and nothing written), or the 16 files were written. -/
structure SplitRun where
  errored : Bool
  files : List SavedFile

/-- `split_tiles.split_tileset` including its missing-file guard: a missing
input prints an error and returns, writing nothing. -/
def splitTilesetRun (name : String) (input : Option Image) : SplitRun :=
  match input with
  | none => ⟨true, []⟩
  | some img => ⟨false, split_tileset name img⟩

/-- `split_tiles.main`: process every tileset in turn; `avail` maps a tileset
name to its input image when the input file exists. -/
def splitMain (avail : String → Option Image) : List (String × SplitRun) :=
  SPLIT_TILESETS.map fun n => (n, splitTilesetRun n (avail n))

/-! ### Basic facts about the image model -/

theorem crop_pix (img : Image) (l t r b i j : Nat) :
    (img.crop l t r b).pix i j = img.getpx (l + i) (t + j) := rfl

theorem crop_width (img : Image) (l t r b : Nat) :
    (img.crop l t r b).width = r - l := rfl

theorem crop_height (img : Image) (l t r b : Nat) :
    (img.crop l t r b).height = b - t := rfl

/-- C1: a tile at grid position `(col, row)` is read starting at pixel offset
`origin_pixel + (col, row) * 17`, both in `extract_tiles.py` (where the origin
is given in pixels) and in `extract_tiles_correct.py` (where the origin is
given in tile coordinates, so `origin_pixel = start * 17`); in particular with
origin `(0, 0)` the tile at `(col = 2, row = 1)` (linear index 6) is read from
pixel offset `(34, 17)`. -/
theorem c1_tile_read_offset (img : Image) (sx sy sc sr col row i j : Nat)
    (hc : col < 4) (hr : row < 4) :
    (gridTile img sx sy (row * 4 + col)).pix i j
      = img.getpx (sx + col * 17 + i) (sy + row * 17 + j)
    ∧ (cellTile img (sc + col) (sr + row)).pix i j
      = img.getpx (sc * 17 + col * 17 + i) (sr * 17 + row * 17 + j)
    ∧ (gridTile img 0 0 6).pix i j = img.getpx (34 + i) (17 + j) := by
  have hdiv : (row * 4 + col) / 4 = row := by omega
  have hmod : (row * 4 + col) % 4 = col := by omega
  refine ⟨?_, ?_, ?_⟩
  · show img.getpx _ _ = _
    congr 1 <;> simp [hdiv, hmod, TILE_STEP, TILE_SIZE, MARGIN]
  · show img.getpx _ _ = _
    congr 1 <;> · simp [TILE_STEP, TILE_SIZE, MARGIN]; ring
  · rfl

/-- C1 witness: the concrete instance of the spec example, origin `(0,0)`,
tile `(col = 2, row = 1)`, read offset `(34, 17)`. -/
theorem c1_tile_read_offset_witness :
    (gridTile (Image.new 100 100) 0 0 (1 * 4 + 2)).pix 3 5
      = (Image.new 100 100).getpx (0 + 2 * 17 + 3) (0 + 1 * 17 + 5) :=
  (c1_tile_read_offset (Image.new 100 100) 0 0 0 0 2 1 3 5
    (by decide) (by decide)).1

/-! ### Helper lemmas on the collection and save loops -/

theorem length_flatMap_const (n m : Nat) (f : Nat → List Image)
    (hf : ∀ r, (f r).length = m) :
    ((List.range n).flatMap f).length = n * m := by
  induction n with
  | zero => simp
  | succ n ih => simp [List.range_succ, ih, hf, Nat.succ_mul]

theorem collectTiles_length (img : Image) (cfg : TilesetCfg)
    (hex : cfg.exclude = []) :
    (collectTiles img cfg).length = cfg.cols * cfg.rows := by
  unfold collectTiles
  refine (length_flatMap_const cfg.rows cfg.cols _ fun r => ?_).trans
    (Nat.mul_comm _ _)
  rw [hex]
  simp only [List.not_mem_nil, if_false]
  rw [show (fun col => some (cellTile img (cfg.start_col + col) (cfg.start_row + r)))
      = some ∘ (fun col => cellTile img (cfg.start_col + col) (cfg.start_row + r))
      from rfl]
  rw [List.filterMap_eq_map]
  simp

theorem collectTiles_mem (img : Image) (cfg : TilesetCfg) (t : Image)
    (ht : t ∈ collectTiles img cfg) : ∃ tc tr, t = cellTile img tc tr := by
  simp only [collectTiles, List.mem_flatMap, List.mem_filterMap,
    List.mem_range] at ht
  obtain ⟨row, _, col, _, h⟩ := ht
  by_cases hmem : (cfg.start_col + col, cfg.start_row + row) ∈ cfg.exclude
  · rw [if_pos hmem] at h
    exact absurd h (by simp)
  · rw [if_neg hmem] at h
    exact ⟨cfg.start_col + col, cfg.start_row + row, (Option.some.injEq _ _ ▸ h).symm⟩

theorem cellTile_width (img : Image) (tc tr : Nat) :
    (cellTile img tc tr).width = TILE_SIZE := by
  simp [cellTile, Image.crop]

theorem cellTile_height (img : Image) (tc tr : Nat) :
    (cellTile img tc tr).height = TILE_SIZE := by
  simp [cellTile, Image.crop]

theorem saveTilesFrom_length (name : String) (i : Nat) (ts : List Image) :
    (saveTilesFrom name i ts).length = ts.length := by
  induction ts generalizing i with
  | nil => rfl
  | cons t ts ih => simp [saveTilesFrom, ih]

theorem saveTilesFrom_getElem? (name : String) (i j : Nat) (ts : List Image) :
    (saveTilesFrom name i ts)[j]?
      = (ts[j]?).map fun t => (⟨tileFileName name (i + j), t⟩ : SavedFile) := by
  induction ts generalizing i j with
  | nil => simp [saveTilesFrom]
  | cons t ts ih =>
    cases j with
    | zero => simp [saveTilesFrom]
    | succ j =>
      have h : i + (j + 1) = i + 1 + j := by omega
      rw [h]
      simpa [saveTilesFrom] using ih (i + 1) j

theorem saveTilesFrom_map_fname (name : String) (i : Nat) (ts : List Image) :
    (saveTilesFrom name i ts).map SavedFile.fname
      = (List.range' i ts.length).map (tileFileName name) := by
  induction ts generalizing i with
  | nil => rfl
  | cons t ts ih => simp [saveTilesFrom, List.range'_succ, ih]

/-! ### Helper lemmas on processTileset -/

theorem processTileset_eq_error (img : Image) (cfg : TilesetCfg)
    (h : (collectTiles img cfg).length = 0) :
    processTileset img cfg = Except.error PyError.indexError := by
  have hnil : collectTiles img cfg = [] := List.length_eq_zero.mp h
  simp [processTileset, hnil, saveTilesFrom]

theorem processTileset_eq_pad (img : Image) (cfg : TilesetCfg)
    (t0 : Image) (rest : List Image)
    (h : collectTiles img cfg = t0 :: rest)
    (hlt : (t0 :: rest).length < 16) :
    processTileset img cfg
      = Except.ok (saveTilesFrom cfg.name 0 (t0 :: rest) ++
          (List.range' (t0 :: rest).length (16 - (t0 :: rest).length)).map fun i =>
            (⟨tileFileName cfg.name i, t0⟩ : SavedFile)) := by
  have h15 : ¬ 15 ≤ rest.length := by simp at hlt; omega
  have hlt' : rest.length < 15 := by omega
  simp [processTileset, h, h15, hlt']

theorem processTileset_eq_trunc (img : Image) (cfg : TilesetCfg)
    (h16 : 16 ≤ (collectTiles img cfg).length) :
    processTileset img cfg
      = Except.ok (saveTilesFrom cfg.name 0 ((collectTiles img cfg).take 16)) := by
  have hlen : ((collectTiles img cfg).take 16).length = 16 := by
    simp [List.length_take]
    omega
  have hnlt : ¬ ((collectTiles img cfg).take 16).length < 16 := by omega
  simp [processTileset, h16, hnlt]

theorem processTileset_isOk_iff (img : Image) (cfg : TilesetCfg) :
    (processTileset img cfg).isOk = true ↔ 0 < (collectTiles img cfg).length := by
  rcases h : collectTiles img cfg with _ | ⟨t0, rest⟩
  · rw [processTileset_eq_error img cfg (by simp [h])]
    simp [Except.isOk, Except.toBool, h]
  · constructor
    · intro _
      simp [h]
    · intro _
      by_cases h16 : 16 ≤ (collectTiles img cfg).length
      · rw [processTileset_eq_trunc img cfg h16]
        rfl
      · rw [processTileset_eq_pad img cfg t0 rest h (by rw [← h]; omega)]
        rfl

theorem processTileset_saved_length (img : Image) (cfg : TilesetCfg)
    (h : 0 < (collectTiles img cfg).length) :
    (savedOf (processTileset img cfg)).length = 16 := by
  by_cases h16 : 16 ≤ (collectTiles img cfg).length
  · rw [processTileset_eq_trunc img cfg h16]
    simp only [savedOf, saveTilesFrom_length, List.length_take]
    omega
  · obtain ⟨t0, rest, hcr⟩ :=
      List.exists_cons_of_ne_nil (List.length_pos.mp h)
    have hk : (t0 :: rest).length < 16 := by rw [← hcr]; omega
    rw [processTileset_eq_pad img cfg t0 rest hcr hk]
    simp only [List.length_cons] at hk
    simp [savedOf, saveTilesFrom_length]
    omega

theorem map_fname_range'_append (f : Nat → String) (k m : Nat) :
    (List.range' 0 k).map f ++ (List.range' k m).map f
      = (List.range' 0 (m + k)).map f := by
  rw [← List.map_append]
  congr 1
  simpa using List.range'_append_1 0 k m

theorem processTileset_map_fname (img : Image) (cfg : TilesetCfg)
    (h : 0 < (collectTiles img cfg).length) :
    (savedOf (processTileset img cfg)).map SavedFile.fname
      = (List.range 16).map (tileFileName cfg.name) := by
  rw [List.range_eq_range']
  by_cases h16 : 16 ≤ (collectTiles img cfg).length
  · rw [processTileset_eq_trunc img cfg h16]
    have hlen : ((collectTiles img cfg).take 16).length = 16 := by
      simp [List.length_take]
      omega
    simp [savedOf, saveTilesFrom_map_fname, hlen]
  · obtain ⟨t0, rest, hcr⟩ :=
      List.exists_cons_of_ne_nil (List.length_pos.mp h)
    have hk : (t0 :: rest).length < 16 := by rw [← hcr]; omega
    rw [processTileset_eq_pad img cfg t0 rest hcr hk]
    simp only [savedOf, List.map_append, saveTilesFrom_map_fname, List.map_map]
    have hcomp : (SavedFile.fname ∘ fun i =>
        (⟨tileFileName cfg.name i, t0⟩ : SavedFile)) = tileFileName cfg.name := rfl
    rw [hcomp, map_fname_range'_append]
    have h16' : 16 - (t0 :: rest).length + (t0 :: rest).length = 16 := by omega
    rw [h16']

theorem processTileset_get?_pad (img : Image) (cfg : TilesetCfg) (i : Nat)
    (t0 : Image) (rest : List Image)
    (hcr : collectTiles img cfg = t0 :: rest)
    (hlt : (t0 :: rest).length < 16)
    (hge : (t0 :: rest).length ≤ i) (hi : i < 16) :
    (savedOf (processTileset img cfg))[i]?
      = some ⟨tileFileName cfg.name i, t0⟩ := by
  rw [processTileset_eq_pad img cfg t0 rest hcr hlt]
  simp only [savedOf]
  rw [List.getElem?_append_right (by simpa [saveTilesFrom_length] using hge)]
  rw [saveTilesFrom_length, List.getElem?_map,
    List.getElem?_range' _ _ (by omega : i - (t0 :: rest).length < 16 - (t0 :: rest).length)]
  have harg : (t0 :: rest).length + 1 * (i - (t0 :: rest).length) = i := by omega
  rw [harg]
  rfl

/-- C7: every tile produced by any of the three extraction operations has
dimensions `TILE_SIZE × TILE_SIZE` (16 × 16): the 4x4-grid crops of
`extract_tiles.py`, every tile collected by
`extract_tiles_correct.extract_tileset`, and every crop of
`split_tiles.split_tileset`. -/
theorem c7_tile_dimensions (img : Image) (sx sy idx v : Nat) (cfg : TilesetCfg) :
    ((gridTile img sx sy idx).width = TILE_SIZE
      ∧ (gridTile img sx sy idx).height = TILE_SIZE)
    ∧ (∀ t ∈ collectTiles img cfg, t.width = TILE_SIZE ∧ t.height = TILE_SIZE)
    ∧ ((splitCrop img v).width = TILE_SIZE
      ∧ (splitCrop img v).height = TILE_SIZE) := by
  refine ⟨⟨?_, ?_⟩, ?_, ?_, ?_⟩
  · simp [gridTile, Image.crop]
  · simp [gridTile, Image.crop]
  · intro t ht
    obtain ⟨tc, tr, rfl⟩ := collectTiles_mem img cfg t ht
    exact ⟨cellTile_width img tc tr, cellTile_height img tc tr⟩
  · simp [splitCrop, Image.crop]
  · simp [splitCrop, Image.crop]

/-- C7 witness: the tile collected from a concrete 1x1 grid config has the
required 16 × 16 dimensions. -/
theorem c7_tile_dimensions_witness :
    (cellTile (Image.new 40 40) 1 1).width = TILE_SIZE
      ∧ (cellTile (Image.new 40 40) 1 1).height = TILE_SIZE :=
  (c7_tile_dimensions (Image.new 40 40) 0 0 0 0 ⟨"w", 1, 1, 1, 1, []⟩).2.1
    (cellTile (Image.new 40 40) 1 1)
    (by
      have h : collectTiles (Image.new 40 40) ⟨"w", 1, 1, 1, 1, []⟩
          = [cellTile (Image.new 40 40) 1 1] := rfl
      rw [h]
      exact List.mem_singleton.mpr rfl)

/-! ### Concrete test images and configurations -/

/-- A concrete 20 x 20 sheet whose pixel `(x, y)` is `(x, y, 7, 255)`. -/
def smallSheet : Image := ⟨20, 20, fun x y => (x, y, 7, 255)⟩

/-- A 1 x 1 grid at tile coordinates `(1, 1)`: its crop box runs from pixel
`(17, 17)` to `(33, 33)`, beyond the 20 x 20 sheet. -/
def oobCfg : TilesetCfg := ⟨"oob", 1, 1, 1, 1, []⟩

/-- A concrete 40 x 20 sheet. -/
def wideSheet : Image := ⟨40, 20, fun x y => (x, y, 3, 255)⟩

/-- A 2 x 1 grid at tile origin `(0, 0)`, fully inside `wideSheet`. -/
def c3Cfg : TilesetCfg := ⟨"c3", 0, 0, 2, 1, []⟩

/-- A configuration with a zero-cell grid (0 columns). -/
def emptyCfg : TilesetCfg := ⟨"empty", 0, 0, 0, 5, []⟩

/-- C2 counterexample: with the concrete 20 x 20 sheet and the 1 x 1 grid at
tile `(1, 1)` the computed tile region `(17,17)-(33,33)` exceeds the sheet
dimensions, yet extraction signals no error and writes its full complement of
16 output files — the claimed OutOfBounds failure does not happen. -/
theorem c2_counterexample :
    smallSheet.width < 1 * TILE_STEP + TILE_SIZE
    ∧ (processTileset smallSheet oobCfg).isOk = true
    ∧ (savedOf (processTileset smallSheet oobCfg)).length = 16 := by
  refine ⟨by decide, ?_, ?_⟩
  · rw [processTileset_isOk_iff, collectTiles_length smallSheet oobCfg rfl]
    decide
  · rw [processTileset_saved_length smallSheet oobCfg
      (by rw [collectTiles_length smallSheet oobCfg rfl]; decide)]

/-- C2 (amended): extraction performs no bounds check.  Whenever at least one
tile is collected the run succeeds (no error is signalled) and all 16 output
files are written, even if computed regions exceed the sheet; a crop simply
reads out-of-bounds pixels as transparent (PIL semantics). -/
theorem c2_no_out_of_bounds_error (img : Image) (cfg : TilesetCfg)
    (h : 0 < (collectTiles img cfg).length) :
    (processTileset img cfg).isOk = true
    ∧ (savedOf (processTileset img cfg)).length = 16
    ∧ ∀ l t i j : Nat, img.width ≤ l + i →
        (img.crop l t (l + TILE_SIZE) (t + TILE_SIZE)).pix i j = transparent := by
  refine ⟨(processTileset_isOk_iff img cfg).mpr h,
    processTileset_saved_length img cfg h, ?_⟩
  intro l t i j hw
  simp only [crop_pix, Image.getpx]
  exact if_neg fun hc => absurd hc.1 (Nat.not_lt.mpr hw)

/-- C2 witness: the amended statement at the concrete out-of-bounds sheet;
pixel `(5, 0)` of the crop starting at `(17, 17)` reads position `(22, 17)`,
outside the 20-wide sheet, and is transparent. -/
theorem c2_no_out_of_bounds_error_witness :
    (processTileset smallSheet oobCfg).isOk = true
    ∧ (smallSheet.crop 17 17 (17 + TILE_SIZE) (17 + TILE_SIZE)).pix 5 0
        = transparent :=
  ⟨(c2_no_out_of_bounds_error smallSheet oobCfg
      (by rw [collectTiles_length smallSheet oobCfg rfl]; decide)).1,
   (c2_no_out_of_bounds_error smallSheet oobCfg
      (by rw [collectTiles_length smallSheet oobCfg rfl]; decide)).2.2
      17 17 5 0 (by decide)⟩

/-- C3 counterexample: a valid 2 x 1 grid spec whose two cells lie fully
inside the 40 x 20 sheet, yet extraction writes 16 tiles, not
`columns * rows = 2`. -/
theorem c3_counterexample :
    c3Cfg.start_col * TILE_STEP + TILE_SIZE ≤ wideSheet.width
    ∧ (c3Cfg.start_col + 1) * TILE_STEP + TILE_SIZE ≤ wideSheet.width
    ∧ c3Cfg.start_row * TILE_STEP + TILE_SIZE ≤ wideSheet.height
    ∧ c3Cfg.cols * c3Cfg.rows = 2
    ∧ (savedOf (processTileset wideSheet c3Cfg)).length = 16
    ∧ (16 : Nat) ≠ 2 := by
  refine ⟨by decide, by decide, by decide, rfl, ?_, by decide⟩
  rw [processTileset_saved_length wideSheet c3Cfg
    (by rw [collectTiles_length wideSheet c3Cfg rfl]; decide)]

/-- C3 (amended): with no excluded cells the collection phase gathers exactly
`columns * rows` tiles, each `TILE_SIZE x TILE_SIZE`; the written extraction
result is then truncated or padded to exactly 16 tiles, regardless of
`columns * rows`. -/
theorem c3_collect_counts (img : Image) (cfg : TilesetCfg)
    (hex : cfg.exclude = []) (hpos : 0 < cfg.cols * cfg.rows) :
    (collectTiles img cfg).length = cfg.cols * cfg.rows
    ∧ (∀ t ∈ collectTiles img cfg, t.width = TILE_SIZE ∧ t.height = TILE_SIZE)
    ∧ (savedOf (processTileset img cfg)).length = 16 := by
  refine ⟨collectTiles_length img cfg hex, ?_, ?_⟩
  · intro t ht
    obtain ⟨tc, tr, rfl⟩ := collectTiles_mem img cfg t ht
    exact ⟨cellTile_width img tc tr, cellTile_height img tc tr⟩
  · exact processTileset_saved_length img cfg
      (by rw [collectTiles_length img cfg hex]; exact hpos)

/-- C3 witness: the amended statement at the concrete 2 x 1 grid. -/
theorem c3_collect_counts_witness :
    (collectTiles wideSheet c3Cfg).length = c3Cfg.cols * c3Cfg.rows
    ∧ (savedOf (processTileset wideSheet c3Cfg)).length = 16 :=
  ⟨(c3_collect_counts wideSheet c3Cfg rfl (by decide)).1,
   (c3_collect_counts wideSheet c3Cfg rfl (by decide)).2.2⟩

/-- C4: when only `k < 16` tiles are collected (with padding enabled, which
is the only policy in the code), the written result has exactly 16 tiles;
the file at index 0 holds the first collected tile (tile 0), and every index
in `k..15` holds a copy of tile 0. -/
theorem c4_pad_with_first_tile (img : Image) (cfg : TilesetCfg)
    (h0 : 0 < (collectTiles img cfg).length)
    (h16 : (collectTiles img cfg).length < 16) :
    (savedOf (processTileset img cfg)).length = 16
    ∧ (savedOf (processTileset img cfg))[0]?
        = ((collectTiles img cfg).head?).map
            (fun t0 => (⟨tileFileName cfg.name 0, t0⟩ : SavedFile))
    ∧ ∀ i : Nat, (collectTiles img cfg).length ≤ i → i < 16 →
        (savedOf (processTileset img cfg))[i]?
          = ((collectTiles img cfg).head?).map
              (fun t0 => (⟨tileFileName cfg.name i, t0⟩ : SavedFile)) := by
  obtain ⟨t0, rest, hcr⟩ := List.exists_cons_of_ne_nil (List.length_pos.mp h0)
  have hlt : (t0 :: rest).length < 16 := by rw [← hcr]; omega
  refine ⟨processTileset_saved_length img cfg h0, ?_, ?_⟩
  · rw [hcr, processTileset_eq_pad img cfg t0 rest hcr hlt]
    simp only [savedOf, List.head?_cons]
    rw [List.getElem?_append_left (by simp [saveTilesFrom_length])]
    rw [saveTilesFrom_getElem?]
    simp
  · intro i hge hi
    rw [hcr] at hge
    rw [hcr, processTileset_get?_pad img cfg i t0 rest hcr hlt hge hi]
    rfl

/-- C4 witness: the concrete 2 x 1 grid collects 2 tiles; index 5 of the
16-file result is a copy of tile 0. -/
theorem c4_pad_with_first_tile_witness :
    (savedOf (processTileset wideSheet c3Cfg)).length = 16
    ∧ (savedOf (processTileset wideSheet c3Cfg))[5]?
        = ((collectTiles wideSheet c3Cfg).head?).map
            (fun t0 => (⟨tileFileName c3Cfg.name 5, t0⟩ : SavedFile)) :=
  ⟨(c4_pad_with_first_tile wideSheet c3Cfg
      (by rw [collectTiles_length wideSheet c3Cfg rfl]; decide)
      (by rw [collectTiles_length wideSheet c3Cfg rfl]; decide)).1,
   (c4_pad_with_first_tile wideSheet c3Cfg
      (by rw [collectTiles_length wideSheet c3Cfg rfl]; decide)
      (by rw [collectTiles_length wideSheet c3Cfg rfl]; decide)).2.2 5
      (by rw [collectTiles_length wideSheet c3Cfg rfl]; decide) (by decide)⟩

/-! ### Run-level lemmas -/

theorem except_ok_isOk (fs : List SavedFile) :
    (Except.ok (ε := PyError) fs).isOk = true := rfl

theorem runTilesets_cons (img : Image) (c : TilesetCfg) (cs : List TilesetCfg) :
    runTilesets img (c :: cs)
      = (processTileset img c).bind fun fs =>
          (runTilesets img cs).bind fun more => Except.ok (fs ++ more) := rfl

theorem runTilesets_isOk_iff (img : Image) (cfgs : List TilesetCfg) :
    (runTilesets img cfgs).isOk = true
      ↔ ∀ cfg ∈ cfgs, 0 < (collectTiles img cfg).length := by
  induction cfgs with
  | nil => simp [runTilesets, Except.isOk, Except.toBool]
  | cons c cs ih =>
    rw [runTilesets_cons]
    cases hp : processTileset img c with
    | error e =>
      have hnc : ¬ 0 < (collectTiles img c).length := by
        intro hpos
        have hok := (processTileset_isOk_iff img c).mpr hpos
        rw [hp] at hok
        exact absurd hok (by simp [Except.isOk, Except.toBool])
      constructor
      · intro h
        exact absurd h (by simp [Except.bind, Except.isOk, Except.toBool])
      · intro hall
        exact absurd (hall c (List.mem_cons_self c cs)) hnc
    | ok fs =>
      have hpos : 0 < (collectTiles img c).length :=
        (processTileset_isOk_iff img c).mp (by rw [hp]; rfl)
      have hL : ((Except.ok fs).bind fun gs =>
          (runTilesets img cs).bind fun more => Except.ok (gs ++ more))
            = (runTilesets img cs).bind fun more => Except.ok (fs ++ more) := rfl
      rw [hL]
      have hIsOk : ((runTilesets img cs).bind fun more =>
          Except.ok (fs ++ more)).isOk = (runTilesets img cs).isOk := by
        cases runTilesets img cs <;> rfl
      rw [hIsOk, ih]
      constructor
      · intro hcs a ha
        rcases List.mem_cons.mp ha with h | h
        · exact h ▸ hpos
        · exact hcs a h
      · intro hall a ha
        exact hall a (List.mem_cons_of_mem c ha)

theorem extract_tileset_some_isOk_iff (img : Image) (cfgs : List TilesetCfg) :
    (extract_tileset (some img) cfgs).isOk = true
      ↔ (runTilesets img cfgs).isOk = true := by
  show ((runTilesets img cfgs).map _).isOk = true ↔ _
  cases runTilesets img cfgs <;>
    simp [Except.map, Except.isOk, Except.toBool]

/-- C10: the padding step accesses `tiles[0]`, so a tileset configuration
that collects zero tiles — a zero-cell grid, or a grid whose cells are all
excluded — makes `extract_tileset` raise an uncaught IndexError (no
IncompleteTileSet report exists in the code), and a run over a list of
tilesets terminates normally exactly when every processed tileset collects
at least one tile. -/
theorem c10_empty_tileset_index_error (img : Image) (cfg : TilesetCfg)
    (cfgs : List TilesetCfg) :
    ((collectTiles img cfg).length = 0 →
        processTileset img cfg = Except.error PyError.indexError)
    ∧ (cfg.cols = 0 ∨ cfg.rows = 0 → (collectTiles img cfg).length = 0)
    ∧ ((∀ col < cfg.cols, ∀ row < cfg.rows,
          (cfg.start_col + col, cfg.start_row + row) ∈ cfg.exclude) →
        (collectTiles img cfg).length = 0)
    ∧ ((extract_tileset (some img) cfgs).isOk = true
        ↔ ∀ c ∈ cfgs, 0 < (collectTiles img c).length) := by
  refine ⟨processTileset_eq_error img cfg, ?_, ?_, ?_⟩
  · rintro (h | h)
    · apply List.length_eq_zero.mpr
      simp only [collectTiles, List.flatMap_eq_nil_iff, List.mem_range]
      intro row _
      rw [h]
      simp
    · apply List.length_eq_zero.mpr
      simp [collectTiles, h]
  · intro hall
    have hnil : collectTiles img cfg = [] := by
      simp only [collectTiles, List.flatMap_eq_nil_iff, List.mem_range,
        List.filterMap_eq_nil_iff]
      intro row hrow col hcol
      rw [if_pos (hall col hcol row hrow)]
    simp [hnil]
  · rw [extract_tileset_some_isOk_iff]
    exact runTilesets_isOk_iff img cfgs

/-- C10 witness: the zero-column configuration collects nothing and crashes
with the IndexError, and a run containing it does not terminate normally. -/
theorem c10_empty_tileset_index_error_witness :
    processTileset smallSheet emptyCfg = Except.error PyError.indexError
    ∧ ¬ (extract_tileset (some smallSheet) [emptyCfg]).isOk = true :=
  ⟨(c10_empty_tileset_index_error smallSheet emptyCfg []).1 (by decide),
   fun hok =>
     absurd (((c10_empty_tileset_index_error smallSheet emptyCfg
         [emptyCfg]).2.2.2.mp hok) emptyCfg (List.mem_singleton.mpr rfl))
       (by decide)⟩

/-- C8 counterexample: with the source image missing,
`extract_tiles_correct.extract_tileset` prints the error and returns, and
the `__main__` guard of `extract_tiles.py` prints instructions — in both
scripts the process then ends with exit status 0, not a non-zero status. -/
theorem c8_counterexample :
    extract_tileset none TILESETS
      = Except.ok ⟨0, ["Error: Source image not found"], []⟩
    ∧ oldMain false
      = (0, ["Error: Source image not found: roguelikeSheet_transparent.png"]) :=
  ⟨rfl, rfl⟩

/-- C8 (amended): a missing source file is reported to the user and the
program terminates without crashing (no unhandled exception), but the exit
status is 0 — the scripts print the error and fall through without calling
`sys.exit`, so no non-zero exit status is produced. -/
theorem c8_missing_source_reported_exit_zero (cfgs : List TilesetCfg) :
    extract_tileset none cfgs
      = Except.ok ⟨0, ["Error: Source image not found"], []⟩
    ∧ (oldMain false).1 = 0
    ∧ (oldMain false).2 ≠ [] :=
  ⟨rfl, rfl, by simp [oldMain]⟩

/-- C8 witness: the amended statement at the concrete `TILESETS` table. -/
theorem c8_missing_source_reported_exit_zero_witness :
    extract_tileset none TILESETS
      = Except.ok ⟨0, ["Error: Source image not found"], []⟩
    ∧ (oldMain false).1 = 0
    ∧ (oldMain false).2 ≠ [] :=
  c8_missing_source_reported_exit_zero TILESETS

/-- C6: output files are named with zero-padded two-digit index suffixes
`name_00.png` … `name_15.png`, and the number of files equals the 16-tile
set size exactly — for `split_tiles.split_tileset` and for the individual
saves of `extract_tiles_correct.extract_tileset`. -/
theorem c6_zero_padded_names (name : String) (img : Image) (cfg : TilesetCfg)
    (h : 0 < (collectTiles img cfg).length) :
    (split_tileset name img).map SavedFile.fname
        = (List.range 16).map (tileFileName name)
    ∧ (split_tileset name img).length = VARIANTS
    ∧ (savedOf (processTileset img cfg)).map SavedFile.fname
        = (List.range 16).map (tileFileName cfg.name)
    ∧ (List.range 16).map (tileFileName "name")
        = ["name_00.png", "name_01.png", "name_02.png", "name_03.png",
           "name_04.png", "name_05.png", "name_06.png", "name_07.png",
           "name_08.png", "name_09.png", "name_10.png", "name_11.png",
           "name_12.png", "name_13.png", "name_14.png", "name_15.png"] := by
  refine ⟨?_, ?_, processTileset_map_fname img cfg h, by decide⟩
  · rw [split_tileset, List.map_map]
    rfl
  · simp [split_tileset, VARIANTS]

/-- C6 witness: the naming equations at a concrete sheet and configuration. -/
theorem c6_zero_padded_names_witness :
    (split_tileset "water" wideSheet).length = VARIANTS
    ∧ (savedOf (processTileset wideSheet c3Cfg)).map SavedFile.fname
        = (List.range 16).map (tileFileName c3Cfg.name) :=
  ⟨(c6_zero_padded_names "water" wideSheet c3Cfg
      (by rw [collectTiles_length wideSheet c3Cfg rfl]; decide)).2.1,
   (c6_zero_padded_names "water" wideSheet c3Cfg
      (by rw [collectTiles_length wideSheet c3Cfg rfl]; decide)).2.2.1⟩

/-- C9: in `split_tiles.main` every tileset is processed independently: a
tileset whose input file is present yields its full 16-file output with no
error, whatever happens to the other tilesets (their files may all be
missing), and a tileset whose input file is missing only has its own
processing terminated (its slot reports the error and writes nothing) while
all `SPLIT_TILESETS.length` entries are still processed. -/
theorem c9_errors_do_not_abort_others (avail : String → Option Image)
    (i : Nat) (hi : i < SPLIT_TILESETS.length) (img : Image)
    (hp : avail (SPLIT_TILESETS.get ⟨i, hi⟩) = some img) :
    (splitMain avail)[i]?
      = some (SPLIT_TILESETS.get ⟨i, hi⟩,
          ⟨false, split_tileset (SPLIT_TILESETS.get ⟨i, hi⟩) img⟩)
    ∧ (split_tileset (SPLIT_TILESETS.get ⟨i, hi⟩) img).length = VARIANTS
    ∧ (splitMain avail).length = SPLIT_TILESETS.length
    ∧ ∀ j : Nat, ∀ hj : j < SPLIT_TILESETS.length,
        avail (SPLIT_TILESETS.get ⟨j, hj⟩) = none →
        (splitMain avail)[j]?
          = some (SPLIT_TILESETS.get ⟨j, hj⟩, ⟨true, []⟩) := by
  refine ⟨?_, ?_, ?_, ?_⟩
  · rw [splitMain, List.getElem?_map, List.getElem?_eq_getElem hi]
    simp only [Option.map_some', List.get_eq_getElem] at hp ⊢
    rw [hp]
    rfl
  · simp [split_tileset, VARIANTS]
  · simp [splitMain]
  · intro j hj hnone
    rw [splitMain, List.getElem?_map, List.getElem?_eq_getElem hj]
    simp only [Option.map_some', List.get_eq_getElem] at hnone ⊢
    rw [hnone]
    rfl

/-- The availability map of the C9 witness: only `grass.png` exists. -/
def availGrassOnly : String → Option Image :=
  fun n => if n = "grass" then some wideSheet else none

/-- C9 witness: with only the grass input present, the grass tileset (index 1)
is still fully processed. -/
theorem c9_errors_do_not_abort_others_witness :
    (splitMain availGrassOnly)[1]?
      = some (SPLIT_TILESETS.get ⟨1, by decide⟩,
          ⟨false, split_tileset (SPLIT_TILESETS.get ⟨1, by decide⟩) wideSheet⟩) :=
  (c9_errors_do_not_abort_others availGrassOnly 1 (by decide) wideSheet
    (by rfl)).1

/-! ### Strip write / re-split round trip -/

theorem getpx_eq_pix (t : Image) (x y : Nat) (hx : x < t.width)
    (hy : y < t.height) : t.getpx x y = t.pix x y := by
  simp only [Image.getpx]
  rw [if_pos ⟨hx, hy⟩]

theorem paste_pix_of_lt (base tile : Image) (px py x y : Nat) (hx : x < px) :
    (base.paste tile px py).pix x y = base.pix x y := by
  simp only [Image.paste]
  rw [if_neg]
  intro hc
  exact absurd hc.1 (Nat.not_le.mpr hx)

theorem paste_pix_in (base tile : Image) (px py x y : Nat)
    (h1 : px ≤ x) (h2 : x < px + tile.width)
    (h3 : py ≤ y) (h4 : y < py + tile.height) :
    (base.paste tile px py).pix x y = tile.getpx (x - px) (y - py) := by
  simp only [Image.paste]
  rw [if_pos ⟨h1, h2, h3, h4⟩]

theorem pasteAll_cons (base t : Image) (ts : List Image) (i : Nat) :
    pasteAll base i (t :: ts) = pasteAll (base.paste t (i * 16) 0) (i + 1) ts :=
  rfl

theorem pasteAll_width (ts : List Image) (base : Image) (i : Nat) :
    (pasteAll base i ts).width = base.width := by
  induction ts generalizing base i with
  | nil => rfl
  | cons t ts ih => exact ih (base.paste t (i * TILE_SIZE) 0) (i + 1)

theorem pasteAll_height (ts : List Image) (base : Image) (i : Nat) :
    (pasteAll base i ts).height = base.height := by
  induction ts generalizing base i with
  | nil => rfl
  | cons t ts ih => exact ih (base.paste t (i * TILE_SIZE) 0) (i + 1)

theorem pasteAll_pix_left (ts : List Image) (base : Image) (i x y : Nat)
    (hx : x < i * 16) :
    (pasteAll base i ts).pix x y = base.pix x y := by
  induction ts generalizing base i with
  | nil => rfl
  | cons t ts ih =>
    rw [pasteAll_cons]
    rw [ih (base.paste t (i * 16) 0) (i + 1) (by omega)]
    exact paste_pix_of_lt base t (i * 16) 0 x y (by omega)

theorem pasteAll_pix_at (ts : List Image) (base : Image) (i0 v i j : Nat)
    (hsz : ∀ t ∈ ts, t.width = 16 ∧ t.height = 16)
    (hv : v < ts.length) (hi : i < 16) (hj : j < 16) :
    (pasteAll base i0 ts).pix ((i0 + v) * 16 + i) j
      = (ts.get ⟨v, hv⟩).pix i j := by
  induction ts generalizing base i0 v with
  | nil => exact absurd hv (by simp)
  | cons t ts ih =>
    rw [pasteAll_cons]
    cases v with
    | zero =>
      have hw : t.width = 16 := (hsz t (List.mem_cons_self t ts)).1
      have hh : t.height = 16 := (hsz t (List.mem_cons_self t ts)).2
      rw [pasteAll_pix_left ts _ (i0 + 1) _ j (by omega)]
      rw [paste_pix_in base t (i0 * 16) 0 ((i0 + 0) * 16 + i) j
        (by omega) (by rw [hw]; omega) (by omega) (by rw [hh]; omega)]
      have hx : (i0 + 0) * 16 + i - i0 * 16 = i := by omega
      have hy : j - 0 = j := by omega
      rw [hx, hy]
      exact getpx_eq_pix t i j (hw.symm ▸ hi) (hh.symm ▸ hj)
    | succ v =>
      have hv' : v < ts.length := by simpa using hv
      have harg : (i0 + (v + 1)) * 16 + i = (i0 + 1 + v) * 16 + i := by omega
      rw [harg]
      rw [ih (base.paste t (i0 * 16) 0) (i0 + 1) v
        (fun t' ht' => hsz t' (List.mem_cons_of_mem t ht')) hv']
      rfl

/-- C5: writing a sequence of 16 tiles of size 16 x 16 as a strip (each tile
pasted at `x = index * TILE_SIZE`, no inter-tile margin, as in
`extract_tiles.py`) and then re-splitting the strip (cropping at
`x = index * TILE_SIZE`, as in `split_tiles.py`) yields tiles pixel-identical
to the originals. -/
theorem c5_strip_roundtrip (tiles : List Image)
    (hlen : tiles.length = 16)
    (hsz : ∀ t ∈ tiles, t.width = TILE_SIZE ∧ t.height = TILE_SIZE) :
    ∀ v i j : Nat, ∀ hv : v < tiles.length, i < 16 → j < 16 →
      (splitCrop (writeStrip tiles) v).pix i j
        = (tiles.get ⟨v, hv⟩).pix i j := by
  intro v i j hv hi hj
  have hv16 : v < 16 := hlen ▸ hv
  rw [splitCrop, crop_pix, Nat.zero_add]
  have hwdt : (writeStrip tiles).width = 16 * TILE_SIZE :=
    pasteAll_width tiles _ 0
  have hhgt : (writeStrip tiles).height = TILE_SIZE :=
    pasteAll_height tiles _ 0
  rw [getpx_eq_pix (writeStrip tiles) _ j
    (by rw [hwdt]; simp only [TILE_SIZE]; omega)
    (by rw [hhgt]; simp only [TILE_SIZE]; omega)]
  have harg : v * TILE_SIZE + i = (0 + v) * 16 + i := by
    simp only [TILE_SIZE]
    omega
  rw [writeStrip, harg]
  exact pasteAll_pix_at tiles _ 0 v i j hsz hv hi hj

/-- A concrete 16 x 16 tile used by the C5 witness. -/
def sampleTile : Image := ⟨16, 16, fun x y => (x + y, x * y, 1, 255)⟩

/-- C5 witness: the round trip at a concrete sequence of 16 tiles, variant 3,
pixel `(2, 5)`. -/
theorem c5_strip_roundtrip_witness :
    (splitCrop (writeStrip (List.replicate 16 sampleTile)) 3).pix 2 5
      = ((List.replicate 16 sampleTile).get ⟨3, by decide⟩).pix 2 5 :=
  c5_strip_roundtrip (List.replicate 16 sampleTile) (by decide)
    (fun t ht => by rw [List.eq_of_mem_replicate ht]; exact ⟨rfl, rfl⟩)
    3 2 5 (by decide) (by decide) (by decide)

end CollabCanva
